import Mathlib

set_option maxRecDepth 16384

/-!
Verification of the YouTube transcript-notes application (src/app.py)
against its natural-language specification.

Strings are embedded as `List Char`.  Pure fragments of the Python code
(regex-based video-id extraction, transcript flattening, the fallback
summarizer, the model-preference loop, payload construction and the
submission pipeline's control flow) are translated into executable Lean
definitions; external effects (the transcript service and the
generative-model service) are passed in as explicit oracle arguments.
-/

namespace App

/-! ## URL parsing (app.py lines 57-81)

The source tries three regex patterns in order on the submitted URL and
returns the first capture group:

  patterns = [ r'(?:v=|\/)([0-9A-Za-z_-]{11}).*',
               r'(?:embed\/)([0-9A-Za-z_-]{11})',
               r'(?:youtu\.be\/)([0-9A-Za-z_-]{11})' ]

`re.search` returns the leftmost position at which the pattern matches;
the alternation tries `v=` before `/` (at any single position at most one
of the two literal prefixes can match).  The trailing `.*` always
succeeds (zero repetitions are allowed), so it is dropped.
-/

/-- Character class `[0-9A-Za-z_-]` of the source's regex patterns. -/
def idChar (c : Char) : Bool := c.isAlphanum || c = '_' || c = '-'

/-- `([0-9A-Za-z_-]{11})`: capture exactly 11 identifier characters. -/
def takeId11 (s : List Char) : Option (List Char) :=
  if (s.take 11).length = 11 ∧ (s.take 11).all idChar = true then some (s.take 11)
  else none

/-- Match a literal prefix `pat` followed by an 11-character capture. -/
def matchPatId (pat s : List Char) : Option (List Char) :=
  if s.take pat.length = pat then takeId11 (s.drop pat.length) else none

def vEqPat : List Char := "v=".data
def slashPat : List Char := "/".data
def embedPat : List Char := "embed/".data
def youtuBePat : List Char := "youtu.be/".data

/-- Pattern `(?:v=|\/)([0-9A-Za-z_-]{11})` at a single position:
the alternation tries `v=` first, then `/`. -/
def p1At (s : List Char) : Option (List Char) :=
  match matchPatId vEqPat s with
  | some v => some v
  | none => matchPatId slashPat s

/-- Pattern `(?:embed\/)([0-9A-Za-z_-]{11})` at a single position. -/
def p2At (s : List Char) : Option (List Char) := matchPatId embedPat s

/-- Pattern `(?:youtu\.be\/)([0-9A-Za-z_-]{11})` at a single position. -/
def p3At (s : List Char) : Option (List Char) := matchPatId youtuBePat s

/-- `re.search`: try the pattern at each position, leftmost match wins. -/
def reSearch (pAt : List Char → Option (List Char)) : List Char → Option (List Char)
  | [] => pAt []
  | c :: rest =>
    match pAt (c :: rest) with
    | some v => some v
    | none => reSearch pAt rest

/-- The id-extraction loop of `extract_transcript_details`
(app.py lines 60-75): the three patterns are searched in list order and
the first pattern that matches anywhere supplies `video_id`;
`none` models the `if not video_id: ... return None` branch. -/
def extractVideoId (url : List Char) : Option (List Char) :=
  match reSearch p1At url with
  | some v => some v
  | none =>
    match reSearch p2At url with
    | some v => some v
    | none => reSearch p3At url

/-- `true` iff some position of `s` carries the literal `pat` immediately
followed by 11 identifier characters (specification-side predicate used
to state the claims about the parser). -/
def containsPatId (pat : List Char) : List Char → Bool
  | [] => (matchPatId pat []).isSome
  | c :: rest => (matchPatId pat (c :: rest)).isSome || containsPatId pat rest

/-! ## Transcript flattening (app.py lines 84-98)

The fetched result is dispatched on its runtime shape:

    if hasattr(result, 'snippets'): for snippet in result.snippets: text += " " + snippet.text
    elif hasattr(result, '__iter__'):
        for item in result:
            if hasattr(item, 'text'): text += " " + item.text
            elif isinstance(item, dict) and 'text' in item: text += " " + item['text']
    else: text = str(result)
    return text.strip()

Note that a Python `str` value has `__iter__` (and no `snippets`
attribute), so an actual plain-string result is handled by the middle
branch, iterating over its characters; the `else` branch only receives
non-iterable results, which are stringified.  The final `.strip()`
applies to every branch.
-/

/-- One element produced by iterating the fetch result: an object
carrying a `text` attribute, a dict containing (or not containing) a
`"text"` key, or anything else (e.g. a single character of a string). -/
inductive Item where
  | withText (t : List Char)
  | dictText (t : List Char)
  | dictNoText
  | noText
deriving DecidableEq

/-- A fetch result as the dispatch of app.py lines 86-96 sees it:
an object exposing `snippets`, a (non-`snippets`) iterable, or a
non-iterable value with a string representation. -/
inductive FetchResult where
  | withSnippets (texts : List (List Char))
  | iterable (items : List Item)
  | other (strRepr : List Char)
deriving DecidableEq

/-- Body of the `for item in result` loop (lines 90-94): items with a
`text` attribute and dicts with a `"text"` key contribute `" " + text`;
everything else is skipped. -/
def stepItem (acc : List Char) : Item → List Char
  | .withText t => acc ++ (' ' :: t)
  | .dictText t => acc ++ (' ' :: t)
  | .dictNoText => acc
  | .noText => acc

/-- Python's `str.strip()`: drop leading and trailing whitespace. -/
def trim (s : List Char) : List Char :=
  ((s.dropWhile Char.isWhitespace).reverse.dropWhile Char.isWhitespace).reverse

/-- The text-extraction block of `extract_transcript_details`
(lines 84-98), from the fetched result to the returned string. -/
def flattenResult : FetchResult → List Char
  | .withSnippets ts => trim (ts.foldl (fun acc t => acc ++ (' ' :: t)) [])
  | .iterable items => trim (items.foldl stepItem [])
  | .other s => trim s

/-- How an actual Python `str` value `s` presents itself to the dispatch:
no `snippets` attribute, iterable, and each element (a one-character
string) has no `text` attribute and is not a dict. -/
def stringResult (s : List Char) : FetchResult :=
  .iterable (s.map (fun _ => Item.noText))

/-- Texts joined with a single space between consecutive entries
(`" ".join` / the specification's "single space separator"). -/
def joinSpace : List (List Char) → List Char
  | [] => []
  | [t] => t
  | t :: rest => t ++ ' ' :: joinSpace rest

/-! ## Fallback summarizer (app.py lines 141-163) -/

/-- Python's `str.split()` with no arguments: split on runs of
whitespace, discarding empty pieces.  `acc` holds the current word in
reverse. -/
def splitAcc (acc : List Char) : List Char → List (List Char)
  | [] => if acc.isEmpty then [] else [acc.reverse]
  | c :: rest =>
    if c.isWhitespace then
      if acc.isEmpty then splitAcc [] rest else acc.reverse :: splitAcc [] rest
    else splitAcc (c :: acc) rest

def pySplit (s : List Char) : List (List Char) := splitAcc [] s

/-- Literal template text of `formatted_summary` before `{summary}`. -/
def tmplA : List Char :=
  "\n    ## 📋 Summary (Simple Extraction)\n    \n    ".data

/-- Literal template text between `{summary}` and `{len(words)}`. -/
def tmplB : List Char :=
  "\n    \n    *Note: This is a simple text extraction since AI summarization is unavailable.*\n    *To enable AI summarization, please check your Gemini API configuration.*\n    \n    **Transcript Length:** ".data

/-- Literal template text between `{len(words)}` and `{len(transcript_text)}`. -/
def tmplC : List Char := " words, ".data

/-- Literal template text after `{len(transcript_text)}`. -/
def tmplD : List Char := " characters\n    ".data

/-- Decimal rendering of a length, as Python's `str(len(...))`. -/
def natStr (n : Nat) : List Char := (Nat.repr n).data

/-- `generate_simple_summary` (app.py lines 141-163). -/
def generate_simple_summary (transcript_text : List Char) : List Char :=
  let words := pySplit transcript_text
  let summary :=
    if words.length > 100 then joinSpace (words.take 100) ++ ("...".data)
    else transcript_text
  tmplA ++ summary ++ tmplB ++ natStr words.length ++ tmplC ++
    natStr transcript_text.length ++ tmplD

/-! ## Gemini summarizer (app.py lines 105-138)

The external generate-content service is passed in as an oracle
`call : model → contents → Option text`; `none` models a raised
exception (caught by the per-model `except`, which logs and continues),
`some txt` models a successful response whose `.text` is returned.
Besides the code's return value, the embedding records the list of
models actually called (in call order), so that claims about which
candidates are attempted can be stated.
-/

/-- The hardcoded candidate list `model_names` (lines 113-119). -/
def model_names : List (List Char) :=
  ["gemini-2.5-flash".data, "gemini-2.5-flash-exp".data, "gemini-2.0-flash".data,
   "gemini-1.5-pro".data, "gemini-pro".data]

/-- The `contents` argument of line 127:
`f"{prompt}\n\nTranscript:\n{transcript_text[:8000]}"`. -/
def buildPayload (prompt transcript_text : List Char) : List Char :=
  prompt ++ ("\n\nTranscript:\n".data) ++ transcript_text.take 8000

/-- The `for model_name in model_names` loop (lines 121-134): first
success returns immediately; a failure falls through to the next
candidate; exhaustion yields `none`.  The second component is the trace
of models called. -/
def tryModels (call : List Char → Option (List Char)) :
    List (List Char) → Option (List Char) × List (List Char)
  | [] => (none, [])
  | m :: rest =>
    match call m with
    | some txt => (some txt, [m])
    | none => ((tryModels call rest).1, m :: (tryModels call rest).2)

/-- `generate_gemini_content` (lines 105-138).  `hasClient` models
`st.session_state.get('gemini_client')` being set (truthy): when it is
not, the function returns `None` before any model is tried. -/
def generate_gemini_content (hasClient : Bool)
    (call : List Char → List Char → Option (List Char))
    (transcript_text prompt : List Char) : Option (List Char) × List (List Char) :=
  if hasClient then
    tryModels (fun m => call m (buildPayload prompt transcript_text)) model_names
  else (none, [])

/-! ## Submission pipeline (app.py lines 52-54, 57-102, 197-249) -/

/-- The fixed instruction prompt (lines 52-54). -/
def promptText : List Char :=
  "You are a YouTube Video Summarizer. You will be taking the transcript text and summarizing \nthe entire video and providing the important summary in points within 250 words. Please provide the\nsummary of the content here:".data

/-- `extract_transcript_details` (lines 57-102) as a whole: id
extraction, then the fetch call (`fetched = none` models `api.fetch`
raising, which the `except` turns into `return None`), then flattening. -/
def extract_transcript_details (url : List Char) (fetched : Option FetchResult) :
    Option (List Char) :=
  match extractVideoId url with
  | none => none
  | some _ =>
    match fetched with
    | none => none
    | some r => some (flattenResult r)

/-- `pat` is a prefix of `s` (plain substring matching, for the
`"youtube.com" in youtube_link` checks). -/
def startsList : List Char → List Char → Bool
  | [], _ => true
  | _ :: _, [] => false
  | p :: ps, c :: cs => p == c && startsList ps cs

/-- Python's `pat in s` substring test. -/
def containsSub (pat : List Char) : List Char → Bool
  | [] => pat.isEmpty
  | c :: rest => startsList pat (c :: rest) || containsSub pat rest

/-- Whether a submission of `url` reaches the `api.fetch(video_id)` call
(line 81): the button handler first requires `"youtube.com"` or
`"youtu.be"` as a substring (line 202), and `extract_transcript_details`
fetches only once a `video_id` was extracted. -/
def fetchAttempted (url : List Char) : Bool :=
  (containsSub ("youtube.com".data) url || containsSub ("youtu.be".data) url)
    && (extractVideoId url).isSome

/-- Outcome of one button press: halted by `st.stop()` before any
summary, an AI summary (lines 231-237), or the fallback summary
(lines 238-248). -/
inductive Outcome where
  | halted
  | aiNotes (txt : List Char)
  | fallbackNotes (txt : List Char)
deriving DecidableEq

/-- The `st.button` handler (lines 197-249): empty-input check, the
`youtube.com`/`youtu.be` gate, transcript extraction, the
`if not transcript_text` halt, then AI summary with local fallback. -/
def runSubmission (url : List Char) (fetched : Option FetchResult)
    (geminiAvailable : Bool)
    (call : List Char → List Char → Option (List Char)) : Outcome :=
  if url.isEmpty then .halted
  else if containsSub ("youtube.com".data) url = false ∧
      containsSub ("youtu.be".data) url = false then .halted
  else
    match extract_transcript_details url fetched with
    | none => .halted
    | some transcript_text =>
      if transcript_text.isEmpty then .halted
      else if geminiAvailable then
        match (generate_gemini_content geminiAvailable call transcript_text promptText).1 with
        | some ai => .aiNotes ai
        | none => .fallbackNotes (generate_simple_summary transcript_text)
      else .fallbackNotes (generate_simple_summary transcript_text)

/-! ## Lemmas about the URL parser -/

lemma takeId11_wf {t id : List Char} (h : takeId11 t = some id) :
    id.length = 11 ∧ id.all idChar = true := by
  unfold takeId11 at h
  split at h
  next hcond => cases h; exact hcond
  next => cases h

lemma matchPatId_wf {pat t id : List Char} (h : matchPatId pat t = some id) :
    id.length = 11 ∧ id.all idChar = true := by
  unfold matchPatId at h
  split at h
  · exact takeId11_wf h
  · cases h

lemma p1At_wf {t id : List Char} (h : p1At t = some id) :
    id.length = 11 ∧ id.all idChar = true := by
  unfold p1At at h
  cases hv : matchPatId vEqPat t with
  | some v => rw [hv] at h; cases h; exact matchPatId_wf hv
  | none => rw [hv] at h; exact matchPatId_wf h

lemma reSearch_wf {pAt : List Char → Option (List Char)}
    (hw : ∀ t id, pAt t = some id → id.length = 11 ∧ id.all idChar = true) :
    ∀ {s id : List Char}, reSearch pAt s = some id →
      id.length = 11 ∧ id.all idChar = true := by
  intro s
  induction s with
  | nil => intro id h; exact hw [] id h
  | cons c rest ih =>
    intro id h
    unfold reSearch at h
    cases hc : pAt (c :: rest) with
    | some v => rw [hc] at h; cases h; exact hw _ _ hc
    | none => rw [hc] at h; exact ih h

lemma extractVideoId_wf {url id : List Char} (h : extractVideoId url = some id) :
    id.length = 11 ∧ id.all idChar = true := by
  unfold extractVideoId at h
  cases h1 : reSearch p1At url with
  | some v =>
    rw [h1] at h; cases h
    exact reSearch_wf (fun t i hi => p1At_wf hi) h1
  | none =>
    rw [h1] at h
    cases h2 : reSearch p2At url with
    | some v =>
      rw [h2] at h; cases h
      exact reSearch_wf (fun t i hi => matchPatId_wf hi) h2
    | none =>
      rw [h2] at h
      exact reSearch_wf (fun t i hi => matchPatId_wf hi) h

lemma containsPatId_cons (pat : List Char) (c : Char) (rest : List Char) :
    containsPatId pat (c :: rest) =
      ((matchPatId pat (c :: rest)).isSome || containsPatId pat rest) := rfl

lemma containsPatId_cons_false {pat : List Char} {c : Char} {rest : List Char} :
    containsPatId pat (c :: rest) = false ↔
      (matchPatId pat (c :: rest) = none ∧ containsPatId pat rest = false) := by
  rw [containsPatId_cons]
  cases hm : matchPatId pat (c :: rest) <;> simp

lemma reSearch_p1_none_iff (s : List Char) :
    reSearch p1At s = none ↔
      (containsPatId vEqPat s = false ∧ containsPatId slashPat s = false) := by
  induction s with
  | nil =>
    show p1At [] = none ↔ _
    unfold p1At containsPatId
    cases hv : matchPatId vEqPat [] <;> cases hs : matchPatId slashPat [] <;> simp
  | cons c rest ih =>
    have hstep : reSearch p1At (c :: rest) =
        match p1At (c :: rest) with
        | some v => some v
        | none => reSearch p1At rest := rfl
    rw [hstep, containsPatId_cons_false, containsPatId_cons_false]
    cases hv : matchPatId vEqPat (c :: rest) <;>
      cases hs : matchPatId slashPat (c :: rest) <;>
        simp [p1At, hv, hs, ih]

lemma reSearch_matchPatId_isSome (pat : List Char) :
    ∀ s : List Char, (reSearch (matchPatId pat) s).isSome = containsPatId pat s := by
  intro s
  induction s with
  | nil => rfl
  | cons c rest ih =>
    unfold reSearch containsPatId
    cases hc : matchPatId pat (c :: rest) <;> simp [hc, ih]

lemma matchPatId_append {pre pat s id : List Char}
    (h : matchPatId (pre ++ pat) s = some id) :
    matchPatId pat (s.drop pre.length) = some id := by
  unfold matchPatId at h ⊢
  split at h
  case isTrue hc =>
    have hs : s = (pre ++ pat) ++ s.drop (pre ++ pat).length := by
      nth_rewrite 1 [← List.take_append_drop ((pre ++ pat).length) s]
      rw [hc]
    have htail : s.drop pre.length = pat ++ s.drop (pre ++ pat).length := by
      nth_rewrite 1 [hs]
      rw [List.append_assoc, List.drop_left]
    rw [htail, List.take_left, List.drop_left]
    simpa using h
  case isFalse => cases h

lemma containsPatId_head {pat t : List Char}
    (h : (matchPatId pat t).isSome = true) : containsPatId pat t = true := by
  cases t with
  | nil => exact h
  | cons c rest => unfold containsPatId; simp [h]

lemma containsPatId_drop (pat : List Char) :
    ∀ (n : Nat) (s : List Char),
      containsPatId pat (s.drop n) = true → containsPatId pat s = true := by
  intro n
  induction n with
  | zero => intro s h; simpa using h
  | succ k ih =>
    intro s h
    cases s with
    | nil => simpa using h
    | cons c rest =>
      rw [List.drop_succ_cons] at h
      have := ih rest h
      unfold containsPatId
      simp [this]

lemma containsPatId_append {pre pat : List Char} :
    ∀ {s : List Char}, containsPatId (pre ++ pat) s = true →
      containsPatId pat s = true := by
  intro s
  induction s with
  | nil =>
    intro h
    unfold containsPatId at h
    cases hm : matchPatId (pre ++ pat) [] with
    | none => rw [hm] at h; cases h
    | some id =>
      have := matchPatId_append hm
      rw [List.drop_nil] at this
      exact containsPatId_head (by rw [this]; rfl)
  | cons c rest ih =>
    intro h
    unfold containsPatId at h
    rcases Bool.or_eq_true_iff.1 h with h1 | h2
    · cases hm : matchPatId (pre ++ pat) (c :: rest) with
      | none => rw [hm] at h1; cases h1
      | some id =>
        have hd := matchPatId_append hm
        have : containsPatId pat ((c :: rest).drop pre.length) = true :=
          containsPatId_head (by rw [hd]; rfl)
        exact containsPatId_drop pat pre.length (c :: rest) this
    · have := ih h2
      unfold containsPatId
      simp [this]

lemma isSome_false_iff {α : Type} {o : Option α} : o.isSome = false ↔ o = none := by
  cases o <;> simp

lemma extract_none_iff (url : List Char) :
    extractVideoId url = none ↔
      (containsPatId vEqPat url = false ∧ containsPatId slashPat url = false) := by
  constructor
  · intro h
    unfold extractVideoId at h
    cases h1 : reSearch p1At url with
    | some v => rw [h1] at h; cases h
    | none => exact (reSearch_p1_none_iff url).1 h1
  · rintro ⟨hv, hs⟩
    have hp1 : reSearch p1At url = none := (reSearch_p1_none_iff url).2 ⟨hv, hs⟩
    have hp2 : reSearch p2At url = none := by
      rw [← isSome_false_iff]
      show (reSearch (matchPatId embedPat) url).isSome = false
      rw [reSearch_matchPatId_isSome]
      cases hc : containsPatId embedPat url with
      | false => rfl
      | true =>
        have : embedPat = ("embed".data) ++ slashPat := by decide
        rw [this] at hc
        rw [containsPatId_append hc] at hs
        cases hs
    have hp3 : reSearch p3At url = none := by
      rw [← isSome_false_iff]
      show (reSearch (matchPatId youtuBePat) url).isSome = false
      rw [reSearch_matchPatId_isSome]
      cases hc : containsPatId youtuBePat url with
      | false => rfl
      | true =>
        have : youtuBePat = ("youtu.be".data) ++ slashPat := by decide
        rw [this] at hc
        rw [containsPatId_append hc] at hs
        cases hs
    unfold extractVideoId
    rw [hp1, hp2, hp3]

/-- C1 (counterexample): the claim fails in both directions.
First, the URL `/path1234567/watch?v=realid01234` contains the
11-character identifier `realid01234` in the supported `watch?v=<id>`
form, yet the parser returns `path1234567` (the first pattern
`(?:v=|\/)([0-9A-Za-z_-]{11})` matches at the earlier plain slash), not
that identifier.  Second, the URL `x/abcdefghijk` contains no identifier
in any of the three supported forms, yet the parser succeeds with
`abcdefghijk` instead of failing with `InvalidURL`. -/
theorem url_parser_claim_cex :
    (containsPatId ("watch?v=".data) ("/path1234567/watch?v=realid01234".data) = true ∧
      extractVideoId ("/path1234567/watch?v=realid01234".data) =
        some ("path1234567".data)) ∧
    (containsPatId ("watch?v=".data) ("x/abcdefghijk".data) = false ∧
      containsPatId ("youtu.be/".data) ("x/abcdefghijk".data) = false ∧
      containsPatId ("/embed/".data) ("x/abcdefghijk".data) = false ∧
      extractVideoId ("x/abcdefghijk".data) = some ("abcdefghijk".data)) := by
  exact ⟨⟨by decide, by decide⟩, by decide, by decide, by decide, by decide⟩

/-- C1 (amended): if the URL contains an 11-character identifier in one
of the three supported forms (`watch?v=<id>`, `youtu.be/<id>`,
`/embed/<id>`), the URL-parsing step succeeds and returns some
11-character string of identifier characters (the capture of the first
matching pattern, which need not be the identifier of the supported
form); and it fails with `InvalidURL` (returns the error result) exactly
when the URL contains no 11-character identifier run immediately
preceded by `v=` or by `/`. -/
theorem url_parser_amended (url : List Char) :
    ((containsPatId ("watch?v=".data) url = true ∨
      containsPatId ("youtu.be/".data) url = true ∨
      containsPatId ("/embed/".data) url = true) →
      ∃ id, extractVideoId url = some id ∧ id.length = 11 ∧ id.all idChar = true) ∧
    (extractVideoId url = none ↔
      (containsPatId ("v=".data) url = false ∧
        containsPatId ("/".data) url = false)) := by
  constructor
  · intro h
    have hps : containsPatId vEqPat url = true ∨ containsPatId slashPat url = true := by
      rcases h with h | h | h
      · left
        have he : ("watch?v=".data) = ("watch?".data) ++ vEqPat := by decide
        rw [he] at h
        exact containsPatId_append h
      · right
        have he : ("youtu.be/".data) = ("youtu.be".data) ++ slashPat := by decide
        rw [he] at h
        exact containsPatId_append h
      · right
        have he : ("/embed/".data) = ("/embed".data) ++ slashPat := by decide
        rw [he] at h
        exact containsPatId_append h
    cases hx : extractVideoId url with
    | some id => exact ⟨id, rfl, extractVideoId_wf hx⟩
    | none =>
      exfalso
      have hn := (extract_none_iff url).1 hx
      rcases hps with h | h
      · rw [hn.1] at h; cases h
      · rw [hn.2] at h; cases h
  · exact extract_none_iff url

/-- C1 (witness): a canonical watch URL satisfies the supported-form
hypothesis and the parser succeeds on it. -/
theorem url_parser_amended_witness :
    ∃ id, extractVideoId ("https://www.youtube.com/watch?v=dQw4w9WgXcQ".data) =
        some id ∧ id.length = 11 ∧ id.all idChar = true :=
  (url_parser_amended ("https://www.youtube.com/watch?v=dQw4w9WgXcQ".data)).1
    (Or.inl (by decide))

/-- C8 (counterexample): the URL `https://youtube.com/abcdefghijk`
contains none of the three substrings `v=`, `youtu.be/`, `/embed/`, but
the submission does not fail: the first regex pattern matches the plain
slash before `abcdefghijk`, a video id is extracted, and the transcript
fetch is attempted. -/
theorem invalid_url_no_fetch_cex :
    containsSub ("v=".data) ("https://youtube.com/abcdefghijk".data) = false ∧
    containsSub ("youtu.be/".data) ("https://youtube.com/abcdefghijk".data) = false ∧
    containsSub ("/embed/".data) ("https://youtube.com/abcdefghijk".data) = false ∧
    fetchAttempted ("https://youtube.com/abcdefghijk".data) = true := by
  exact ⟨by decide, by decide, by decide, by decide⟩

/-- C8 (amended): for every URL containing no 11-character identifier
run immediately preceded by `v=` or by `/` (which rules out all three
patterns, since the `embed/` and `youtu.be/` patterns both end in a
slash), the submission fails with `InvalidURL`: no video id is
extracted, the transcript fetch is never attempted, and the pipeline
halts for every fetch outcome, configuration and model oracle. -/
theorem invalid_url_no_fetch_amended (url : List Char)
    (h1 : containsPatId ("v=".data) url = false)
    (h2 : containsPatId ("/".data) url = false) :
    extractVideoId url = none ∧ fetchAttempted url = false ∧
    ∀ (fetched : Option FetchResult) (ga : Bool)
      (call : List Char → List Char → Option (List Char)),
      runSubmission url fetched ga call = Outcome.halted := by
  have hx : extractVideoId url = none := (extract_none_iff url).2 ⟨h1, h2⟩
  refine ⟨hx, ?_, ?_⟩
  · simp [fetchAttempted, hx]
  · intro fetched ga call
    have hext : extract_transcript_details url fetched = none := by
      unfold extract_transcript_details
      rw [hx]
    unfold runSubmission
    split
    · rfl
    split
    · rfl
    rw [hext]

/-- C8 (witness): `youtube.com` passes the coarse substring gate but
contains no slash- or `v=`-preceded identifier, so the submission halts
and no fetch happens. -/
theorem invalid_url_no_fetch_amended_witness :
    extractVideoId ("youtube.com".data) = none ∧
    fetchAttempted ("youtube.com".data) = false ∧
    ∀ (fetched : Option FetchResult) (ga : Bool)
      (call : List Char → List Char → Option (List Char)),
      runSubmission ("youtube.com".data) fetched ga call = Outcome.halted :=
  invalid_url_no_fetch_amended ("youtube.com".data) (by decide) (by decide)

/-! ## Lemmas about transcript flattening -/

/-- Segment texts each preceded by one space, in order: the raw
accumulator value built by the `transcript_text += " " + ...` loops. -/
def spaceJoin : List (List Char) → List Char
  | [] => []
  | t :: rest => (' ' :: t) ++ spaceJoin rest

lemma foldl_snips (ts : List (List Char)) :
    ∀ acc : List Char,
      ts.foldl (fun a t => a ++ (' ' :: t)) acc = acc ++ spaceJoin ts := by
  induction ts with
  | nil => intro acc; simp [spaceJoin]
  | cons t rest ih => intro acc; simp [spaceJoin, ih, List.append_assoc]

lemma foldl_withText (ts : List (List Char)) :
    ∀ acc : List Char,
      (ts.map Item.withText).foldl stepItem acc = acc ++ spaceJoin ts := by
  induction ts with
  | nil => intro acc; simp [spaceJoin]
  | cons t rest ih => intro acc; simp [spaceJoin, stepItem, ih, List.append_assoc]

lemma foldl_dictText (ts : List (List Char)) :
    ∀ acc : List Char,
      (ts.map Item.dictText).foldl stepItem acc = acc ++ spaceJoin ts := by
  induction ts with
  | nil => intro acc; simp [spaceJoin]
  | cons t rest ih => intro acc; simp [spaceJoin, stepItem, ih, List.append_assoc]

lemma foldl_noText (cs : List Char) :
    ∀ acc : List Char, (cs.map (fun _ => Item.noText)).foldl stepItem acc = acc := by
  induction cs with
  | nil => intro acc; rfl
  | cons c rest ih => intro acc; simpa [stepItem] using ih acc

lemma spaceJoin_cons_join (t : List Char) (rest : List (List Char)) :
    spaceJoin (t :: rest) = ' ' :: joinSpace (t :: rest) := by
  induction rest generalizing t with
  | nil => simp [spaceJoin, joinSpace]
  | cons r rs ih =>
    have h1 : spaceJoin (t :: r :: rs) = (' ' :: t) ++ spaceJoin (r :: rs) := rfl
    rw [h1, ih r]
    simp [joinSpace]

lemma trim_cons_space (x : List Char) : trim (' ' :: x) = trim x := by
  have h : (' ' : Char).isWhitespace = true := by decide
  simp [trim, List.dropWhile_cons, h]

lemma trim_spaceJoin (ts : List (List Char)) :
    trim (spaceJoin ts) = trim (joinSpace ts) := by
  cases ts with
  | nil => rfl
  | cons t rest => rw [spaceJoin_cons_join, trim_cons_space]

lemma flatten_snips (ts : List (List Char)) :
    flattenResult (.withSnippets ts) = trim (joinSpace ts) := by
  show trim (ts.foldl (fun a t => a ++ (' ' :: t)) []) = _
  rw [foldl_snips ts [], List.nil_append, trim_spaceJoin]

lemma flatten_withText (ts : List (List Char)) :
    flattenResult (.iterable (ts.map Item.withText)) = trim (joinSpace ts) := by
  show trim ((ts.map Item.withText).foldl stepItem []) = _
  rw [foldl_withText ts [], List.nil_append, trim_spaceJoin]

lemma flatten_dictText (ts : List (List Char)) :
    flattenResult (.iterable (ts.map Item.dictText)) = trim (joinSpace ts) := by
  show trim ((ts.map Item.dictText).foldl stepItem []) = _
  rw [foldl_dictText ts [], List.nil_append, trim_spaceJoin]

/-- C2 (counterexample): a plain string is not used verbatim.  An actual
string result is iterable, so the code iterates its characters, none of
which carries a `text` field, and the transcript comes out empty — while
the equivalent one-segment response yields `"hello"`.  Even the
non-iterable `else` branch (`str(result)`) is stripped by the final
`.strip()`, so ` hello ` would come back as `hello`, not verbatim. -/
theorem shape_invariance_cex :
    flattenResult (FetchResult.withSnippets [("hello".data)]) = ("hello".data) ∧
    flattenResult (stringResult ("hello".data)) = [] ∧
    flattenResult (FetchResult.other (" hello ".data)) = ("hello".data) := by
  exact ⟨by decide, by decide, by decide⟩

/-- C2 (amended): the three segment-shaped responses (object with a
`snippets` collection, iterable of objects with a `text` attribute,
iterable of mappings with a `"text"` key) are shape-invariant: given the
same underlying texts they all flatten to the space-joined, trimmed
string.  A plain string is not used verbatim: being iterable, it
flattens to the empty string; the stringify branch applies only to
non-iterable results and trims its output. -/
theorem shape_invariance_amended (ts : List (List Char)) (s : List Char) :
    flattenResult (FetchResult.withSnippets ts) = trim (joinSpace ts) ∧
    flattenResult (FetchResult.iterable (ts.map Item.withText)) = trim (joinSpace ts) ∧
    flattenResult (FetchResult.iterable (ts.map Item.dictText)) = trim (joinSpace ts) ∧
    flattenResult (stringResult s) = [] ∧
    flattenResult (FetchResult.other s) = trim s := by
  refine ⟨flatten_snips ts, flatten_withText ts, flatten_dictText ts, ?_, rfl⟩
  show trim ((s.map (fun _ => Item.noText)).foldl stepItem []) = []
  rw [foldl_noText s []]
  rfl

/-- C7: transcript flattening of a segment-list response is
order-preserving and equals the segment texts joined with a single space
separator, with leading and trailing whitespace trimmed; in particular
segments `["Hello", "world"]` yield exactly `"Hello world"`. -/
theorem concat_order_preserving (ts : List (List Char)) :
    flattenResult (FetchResult.withSnippets ts) = trim (joinSpace ts) ∧
    flattenResult (FetchResult.withSnippets [("Hello".data), ("world".data)]) =
      ("Hello world".data) := by
  exact ⟨flatten_snips ts, by decide⟩

/-! ## Fallback summarizer: claim C3 -/

lemma generate_simple_summary_eq (t : List Char) :
    generate_simple_summary t =
      tmplA ++
        (if (pySplit t).length > 100 then joinSpace ((pySplit t).take 100) ++ ("...".data)
         else t) ++
        tmplB ++ natStr (pySplit t).length ++ tmplC ++ natStr t.length ++ tmplD := rfl

/-- C3: for every transcript, the fallback summarizer splits it into
whitespace-delimited words; with more than 100 words the output embeds
exactly the first 100 words (space-joined) followed by the ellipsis
marker `...`, otherwise it embeds the transcript unchanged with nothing
appended; and in both cases the reported word count and character count
are those of the original, untruncated transcript. -/
theorem fallback_summary_contract (t : List Char) :
    ((pySplit t).length > 100 →
      generate_simple_summary t =
        tmplA ++ (joinSpace ((pySplit t).take 100) ++ ("...".data)) ++ tmplB ++
          natStr (pySplit t).length ++ tmplC ++ natStr t.length ++ tmplD) ∧
    ((pySplit t).length ≤ 100 →
      generate_simple_summary t =
        tmplA ++ t ++ tmplB ++ natStr (pySplit t).length ++ tmplC ++
          natStr t.length ++ tmplD) := by
  constructor
  · intro h
    rw [generate_simple_summary_eq, if_pos h]
  · intro h
    rw [generate_simple_summary_eq, if_neg (by omega)]

/-- A concrete 150-word transcript (the words joined by single spaces). -/
def t150 : List Char := joinSpace (List.replicate 150 ("w".data))

/-- C3 (witness): the 150-word transcript has more than 100 words, in
fact exactly 150, and its fallback summary is the first 100 words plus
the ellipsis marker, reporting the original counts. -/
theorem fallback_summary_contract_witness :
    (pySplit t150).length = 150 ∧ (pySplit t150).length > 100 ∧
    generate_simple_summary t150 =
      tmplA ++ (joinSpace ((pySplit t150).take 100) ++ ("...".data)) ++ tmplB ++
        natStr (pySplit t150).length ++ tmplC ++ natStr t150.length ++ tmplD :=
  ⟨by decide, by decide, (fallback_summary_contract t150).1 (by decide)⟩

/-! ## Payload truncation: claim C4 -/

/-- C4: the request payload is the prompt, a fixed separator, and the
transcript truncated to its first 8000 characters: a transcript of at
most (in particular exactly) 8000 characters is embedded unmodified,
while a longer transcript is cut to exactly 8000 characters, silently
dropping the tail. -/
theorem payload_truncation (p t : List Char) :
    buildPayload p t = p ++ ("\n\nTranscript:\n".data) ++ t.take 8000 ∧
    (t.length ≤ 8000 → buildPayload p t = p ++ ("\n\nTranscript:\n".data) ++ t) ∧
    (8000 < t.length → (t.take 8000).length = 8000 ∧ t.take 8000 ≠ t) := by
  refine ⟨rfl, ?_, ?_⟩
  · intro h
    unfold buildPayload
    rw [List.take_of_length_le h]
  · intro h
    constructor
    · rw [List.length_take]
      omega
    · intro he
      have hl : (t.take 8000).length = t.length := by rw [he]
      rw [List.length_take] at hl
      omega

/-- C4 (witness): an 8000-character transcript passes unmodified and an
8001-character transcript is cut to exactly 8000 characters. -/
theorem payload_truncation_witness :
    buildPayload [] (List.replicate 8000 'a') =
      [] ++ ("\n\nTranscript:\n".data) ++ List.replicate 8000 'a' ∧
    ((List.replicate 8001 'a').take 8000).length = 8000 ∧
    (List.replicate 8001 'a').take 8000 ≠ List.replicate 8001 'a' :=
  ⟨(payload_truncation [] (List.replicate 8000 'a')).2.1
      (by rw [List.length_replicate]),
   (payload_truncation [] (List.replicate 8001 'a')).2.2
      (by rw [List.length_replicate]; omega)⟩

/-! ## Model-preference loop: claims C5, C6, C9 -/

lemma tryModels_cons (call : List Char → Option (List Char)) (m : List Char)
    (rest : List (List Char)) :
    tryModels call (m :: rest) =
      match call m with
      | some txt => (some txt, [m])
      | none => ((tryModels call rest).1, m :: (tryModels call rest).2) := rfl

lemma tryModels_trace_take (call : List Char → Option (List Char)) :
    ∀ ms : List (List Char), ∃ n, (tryModels call ms).2 = ms.take n := by
  intro ms
  induction ms with
  | nil => exact ⟨0, rfl⟩
  | cons m rest ih =>
    cases hc : call m with
    | some txt =>
      refine ⟨1, ?_⟩
      rw [tryModels_cons, hc]
      rfl
    | none =>
      obtain ⟨n, hn⟩ := ih
      refine ⟨n + 1, ?_⟩
      rw [tryModels_cons, hc, List.take_succ_cons]
      simpa using hn

lemma tryModels_success (call : List Char → Option (List Char)) :
    ∀ (ms : List (List Char)) (txt : List Char),
      (tryModels call ms).1 = some txt →
      ∃ m, (tryModels call ms).2.getLast? = some m ∧ call m = some txt ∧
        ∀ x ∈ (tryModels call ms).2.dropLast, call x = none := by
  intro ms
  induction ms with
  | nil => intro txt h; cases h
  | cons m rest ih =>
    intro txt h
    cases hc : call m with
    | some t0 =>
      have hres : tryModels call (m :: rest) = (some t0, [m]) := by
        rw [tryModels_cons, hc]
      rw [hres] at h
      replace h : t0 = txt := by simpa using h
      subst h
      refine ⟨m, ?_, hc, ?_⟩
      · rw [hres]
        simp
      · rw [hres]
        intro x hx
        simp at hx
    | none =>
      have hres : tryModels call (m :: rest) =
          ((tryModels call rest).1, m :: (tryModels call rest).2) := by
        rw [tryModels_cons, hc]
      rw [hres] at h
      obtain ⟨m', h1, h2, h3⟩ := ih txt h
      cases htr : (tryModels call rest).2 with
      | nil => rw [htr] at h1; cases h1
      | cons a as =>
        rw [htr] at h1 h3
        refine ⟨m', ?_, h2, ?_⟩
        · rw [hres, htr, List.getLast?_cons_cons]
          exact h1
        · rw [hres, htr, List.dropLast_cons₂]
          intro x hx
          rcases List.mem_cons.1 hx with hx | hx
          · rw [hx]; exact hc
          · exact h3 x hx

lemma tryModels_all_fail (call : List Char → Option (List Char)) :
    ∀ ms : List (List Char), (∀ m ∈ ms, call m = none) →
      tryModels call ms = (none, ms) := by
  intro ms
  induction ms with
  | nil => intro _; rfl
  | cons m rest ih =>
    intro h
    have hm : call m = none := h m (List.mem_cons_self m rest)
    have hr := ih (fun x hx => h x (List.mem_cons_of_mem m hx))
    rw [tryModels_cons, hm, hr]

/-- C5: with a configured client, the summarizer walks exactly the
hardcoded candidate list `"gemini-2.5-flash"`, `"gemini-2.5-flash-exp"`,
`"gemini-2.0-flash"`, `"gemini-1.5-pro"`, `"gemini-pro"` in that order:
the models actually called always form a duplicate-free initial segment
of that list (so no candidate is called twice and no candidate is
skipped or reordered), and whenever a text is returned it is the
response of the last model called, every earlier call having failed —
so after the first success no further candidate is ever called. -/
theorem model_preference_order (call : List Char → List Char → Option (List Char))
    (t p : List Char) :
    model_names = ["gemini-2.5-flash".data, "gemini-2.5-flash-exp".data,
      "gemini-2.0-flash".data, "gemini-1.5-pro".data, "gemini-pro".data] ∧
    (∃ n, (generate_gemini_content true call t p).2 = model_names.take n) ∧
    (generate_gemini_content true call t p).2.Nodup ∧
    ∀ txt, (generate_gemini_content true call t p).1 = some txt →
      ∃ m, (generate_gemini_content true call t p).2.getLast? = some m ∧
        call m (buildPayload p t) = some txt ∧
        ∀ x ∈ (generate_gemini_content true call t p).2.dropLast,
          call x (buildPayload p t) = none := by
  have hg : generate_gemini_content true call t p =
      tryModels (fun m => call m (buildPayload p t)) model_names := by
    unfold generate_gemini_content
    rw [if_pos rfl]
  refine ⟨rfl, ?_, ?_, ?_⟩
  · rw [hg]
    exact tryModels_trace_take _ model_names
  · rw [hg]
    obtain ⟨n, hn⟩ := tryModels_trace_take (fun m => call m (buildPayload p t)) model_names
    rw [hn]
    exact List.Nodup.sublist (List.take_sublist n model_names) (by decide)
  · intro txt h
    rw [hg] at h ⊢
    exact tryModels_success _ model_names txt h

/-- An oracle that fails on the first candidate and succeeds on the
second (a concrete instance for the witness below). -/
def callSecond (m _payload : List Char) : Option (List Char) :=
  if m = ("gemini-2.5-flash-exp".data) then some ("ok".data) else none

/-- C5 (witness): with `callSecond`, the loop returns the second
candidate's text, the second candidate is the last model called, and the
only earlier call (the first candidate) failed. -/
theorem model_preference_order_witness :
    ∃ m, (generate_gemini_content true callSecond [] []).2.getLast? = some m ∧
      callSecond m (buildPayload [] []) = some ("ok".data) ∧
      ∀ x ∈ (generate_gemini_content true callSecond [] []).2.dropLast,
        callSecond x (buildPayload [] []) = none :=
  (model_preference_order callSecond [] []).2.2.2 ("ok".data) (by decide)

/-- C6: every per-candidate failure advances the loop to the next
candidate, and when every candidate model fails the summarizer returns
the explicit "no result" signal `none` — not an exception — after having
tried exactly the full candidate list, so the caller can invoke the
fallback summarizer. -/
theorem model_failure_recovery (call : List Char → List Char → Option (List Char))
    (t p : List Char)
    (h : ∀ m ∈ model_names, call m (buildPayload p t) = none) :
    generate_gemini_content true call t p = (none, model_names) := by
  have hg : generate_gemini_content true call t p =
      tryModels (fun m => call m (buildPayload p t)) model_names := by
    unfold generate_gemini_content
    rw [if_pos rfl]
  rw [hg]
  exact tryModels_all_fail _ model_names h

/-- C6 (witness): the always-failing oracle exhausts the whole list and
yields `none`. -/
theorem model_failure_recovery_witness :
    generate_gemini_content true (fun _ _ => none) [] [] = (none, model_names) :=
  model_failure_recovery (fun _ _ => none) [] [] (fun _ _ => rfl)

/-- C9: with no generative-AI client configured (e.g. the API key is
absent), `generate_gemini_content` returns the "no result" signal
immediately and its call trace is empty — not a single candidate model
is called — for every transcript and prompt. -/
theorem no_client_no_calls (call : List Char → List Char → Option (List Char))
    (t p : List Char) :
    generate_gemini_content false call t p = (none, []) := rfl

/-! ## Empty transcript: claim C10 -/

/-- C10: if the fetched transcript flattens to the empty string (the
final `.strip()` leaves nothing), the submission halts exactly as it
does when transcript extraction fails outright: `if not transcript_text`
treats the empty string like `None`, the pipeline stops with an error,
and neither the AI summarizer nor the fallback summarizer is invoked —
for every URL, configuration and model oracle. -/
theorem empty_transcript_halts (url : List Char) (r : FetchResult) (ga : Bool)
    (call : List Char → List Char → Option (List Char))
    (h : flattenResult r = []) :
    runSubmission url (some r) ga call = Outcome.halted ∧
    runSubmission url none ga call = Outcome.halted := by
  constructor
  · have hext : extract_transcript_details url (some r) = none ∨
        extract_transcript_details url (some r) = some [] := by
      unfold extract_transcript_details
      cases extractVideoId url with
      | none => exact Or.inl rfl
      | some v => exact Or.inr (show some (flattenResult r) = some [] from by rw [h])
    unfold runSubmission
    split
    · rfl
    split
    · rfl
    rcases hext with hext | hext <;> rw [hext]
    rfl
  · have hext : extract_transcript_details url none = none := by
      unfold extract_transcript_details
      cases extractVideoId url with
      | none => rfl
      | some v => rfl
    unfold runSubmission
    split
    · rfl
    split
    · rfl
    rw [hext]

/-- C10 (witness): a valid watch URL whose fetch result stringifies to
nothing halts the pipeline both when the fetch raises and when it
returns the empty-flattening result. -/
theorem empty_transcript_halts_witness :
    flattenResult (FetchResult.other []) = [] ∧
    (runSubmission ("https://www.youtube.com/watch?v=dQw4w9WgXcQ".data)
        (some (FetchResult.other [])) true (fun _ _ => none) = Outcome.halted ∧
      runSubmission ("https://www.youtube.com/watch?v=dQw4w9WgXcQ".data)
        none true (fun _ _ => none) = Outcome.halted) :=
  ⟨rfl, empty_transcript_halts ("https://www.youtube.com/watch?v=dQw4w9WgXcQ".data)
    (FetchResult.other []) true (fun _ _ => none) rfl⟩

end App
